import Mathlib

/-!
Verification of the geiger syntax visitor
(`src/geiger/src/geiger_syn_visitor.rs`).

The Rust module implements a single-pass visitor over a parsed source
file.  It maintains a nesting-depth counter of trust regions (the
source field is named after those regions; here it is called `scopes`
because the Rust keyword naming it is reserved in Lean), a counter
ledger (`RsFileMetrics` / `CounterBlock` / `Count`), and one mutable
per-region statistics record (the source struct `UnsafeStat`, here
`RegionStat`) whose contents are printed as a diagnostic line each time
a region closes.

Naming map (Lean name -- Rust name):
  * `GeigerSynVisitor.scopes`      -- field `unsafe_scopes : u32`
  * `GeigerSynVisitor.stat`        -- field `unsafe_stat : UnsafeStat`
  * `RegionStat`                   -- struct `UnsafeStat`
  * `Count.uns`                    -- field `unsafe_ : u64`
  * `GeigerSynVisitor.enterScope`  -- `enter_unsafe_scope`
  * `GeigerSynVisitor.exitScope`   -- `exit_unsafe_scope`
  * `GeigerSynVisitor.initStat`    -- `init_unsafe_stat`
  * `GeigerSynVisitor.emitStat`    -- `UnsafeStat::stat`
  * `visitExprU`                   -- `visit_expr_unsafe`
  * `GExpr.ublock`                 -- `Expr::Unsafe(_)`

Machine integers (`u32`, `u64`, `usize`) are modelled as `Nat`; the two
places where the Rust arithmetic could wrap below zero
(`unsafe_scopes -= 1` in `exit_unsafe_scope` and
`expr_curr - expr_prev` in `UnsafeStat::stat`) are modelled with
truncated subtraction plus an explicit ghost flag (`scope_underflow`,
`delta_underflow`) that records whether the subtraction was asked to go
below zero.  The diagnostic lines printed to stdout are modelled as a
ghost `output : List Line` accumulated in order of printing.
-/

/-- Modelled from the spec: the test-inclusion policy, the one
recognised configuration option (`IncludeTests` in the source's parent
module, which is not part of the visited source file). -/
inductive IncludeTests where
  | yes
  | no
deriving DecidableEq

/-- Mirrors the source enum `BlockType` with variants `Inner`,
`Function`, `Method` (the three region shapes; the spec calls `Inner`
an inline block). -/
inductive BlockType where
  | Inner
  | Function
  | Method
deriving DecidableEq

/-- Unary operators as far as the visitor distinguishes them: the
raw-pointer dereference (`syn::UnOp::Deref`) and everything else
(negation, logical not). -/
inductive GUnOp where
  | deref
  | neg
  | notOp
deriving DecidableEq

mutual

/-- Expressions of the embedded syntax tree, covering exactly the
shapes the `visit_expr` match distinguishes: an `Expr::Unsafe` block
(`ublock`, carrying its rendered source text and its statements), the
two uncounted trivial shapes `Expr::Path` and `Expr::Lit`, and three
counted shapes whose children the default `syn` recursion visits: a
unary expression (dispatched through `visit_expr_unary`), a call
(callee plus arguments), a block expression (its statements), and a
generic `other` node with a list of child expressions. -/
inductive GExpr where
  | ublock (src : String) (stmts : GStmts)
  | path (nm : String)
  | lit (n : Nat)
  | unary (op : GUnOp) (e : GExpr)
  | call (fe : GExpr) (args : GExprs)
  | blockE (stmts : GStmts)
  | other (es : GExprs)

/-- Lists of expressions (spelled out so that all recursion over the
tree is plainly structural). -/
inductive GExprs where
  | nil
  | cons (e : GExpr) (es : GExprs)

/-- Statements: an expression statement (also covering `Stmt::Semi`),
a `let` binding with or without an initialiser expression, and a
nested item. -/
inductive GStmt where
  | exprS (e : GExpr)
  | localNone
  | localSome (e : GExpr)
  | itemS (i : GItem)

/-- Lists of statements. -/
inductive GStmts where
  | nil
  | cons (s : GStmt) (ss : GStmts)

/-- Items as the visitor distinguishes them.  A function item carries
the results of the external predicates `is_test_fn` (`isTest`) and
`has_unsafe_attributes` (`au`), the presence of the direct marker
`sig.unsafety.is_some()` (`su`), its rendered source text, and its
body's direct statement list.  A module is either without content or
with a list of items, and carries `is_test_mod` (`isTest`).  An impl
block carries its declaration-level marker and its methods; a trait
carries its declaration-level marker. -/
inductive GItem where
  | fnItem (isTest : Bool) (su : Bool) (au : Bool) (src : String) (body : GStmts)
  | modEmpty (isTest : Bool)
  | modItem (isTest : Bool) (items : GItems)
  | implItem (isU : Bool) (ms : GMethods)
  | traitItem (isU : Bool)

/-- Lists of items. -/
inductive GItems where
  | nil
  | cons (i : GItem) (is_ : GItems)

/-- An impl method (`ImplItemMethod`): direct marker, rendered source,
body statements. -/
inductive GMethod where
  | mk (su : Bool) (src : String) (body : GStmts)

/-- Lists of methods. -/
inductive GMethods where
  | nil
  | cons (m : GMethod) (ms : GMethods)

end

/-- Number of statements in a statement list (`block.stmts.len()`). -/
def GStmts.length : GStmts → Nat
  | GStmts.nil => 0
  | GStmts.cons _ ss => 1 + ss.length

/-- Modelled from the spec: one ledger counter, a pair of
non-negative integers (the source struct `Count` lives in the parent
module; per the spec, `count` puts a node in the inside bucket iff the
flag passed is true, else in the outside bucket).  Field `safe` is the
outside bucket, field `uns` (source name `unsafe_`) the inside
bucket. -/
structure Count where
  safe : Nat
  uns : Nat
deriving DecidableEq

/-- The ledger increment: inside bucket iff the flag is true. -/
def Count.count (c : Count) (flag : Bool) : Count :=
  if flag then { c with uns := c.uns + 1 } else { c with safe := c.safe + 1 }

/-- Modelled from the spec: the six-category counter ledger
(`CounterBlock` in the parent module): function declarations, generic
expressions, impl blocks, trait declarations, method declarations. -/
structure CounterBlock where
  functions : Count
  exprs : Count
  item_impls : Count
  item_traits : Count
  methods : Count
deriving DecidableEq

/-- Modelled from the spec: the per-file result record
(`RsFileMetrics` in the parent module): the counter ledger plus the
file-level forbids flag. -/
structure RsFileMetrics where
  counters : CounterBlock
  forbids : Bool
deriving DecidableEq

/-- Mirrors the source struct `UnsafeStat`: the single mutable
active-region statistics record. -/
structure RegionStat where
  expr_prev : Nat
  expr_curr : Nat
  stmt : Nat
  block_type : BlockType
  block : String
  has_deref : Bool
deriving DecidableEq

/-- One diagnostic line as printed by `UnsafeStat::stat`:
`block ~ block_type ~ (expr_curr - expr_prev) ~ stmt`, optionally
followed by the dereference marker (`deref = true` models the line
ending in the text form of the marker). -/
structure Line where
  block : String
  block_type : BlockType
  expr_delta : Nat
  stmt : Nat
  deref : Bool
deriving DecidableEq

/-- Mirrors the source struct `GeigerSynVisitor`, extended with the
ghost observation fields `output` (the diagnostic lines printed so
far, in print order), `scope_underflow` (set iff `exit_unsafe_scope`
was ever entered with the depth counter at zero, where the Rust `u32`
subtraction would wrap) and `delta_underflow` (set iff a diagnostic
line was ever printed with `expr_curr < expr_prev`, where the Rust
`usize` subtraction would wrap). -/
structure GeigerSynVisitor where
  include_tests : IncludeTests
  metrics : RsFileMetrics
  scopes : Nat
  stat : RegionStat
  output : List Line
  scope_underflow : Bool
  delta_underflow : Bool
deriving DecidableEq

/-- Mirrors `GeigerSynVisitor::new`: everything zero / empty / false. -/
def GeigerSynVisitor.new (it : IncludeTests) : GeigerSynVisitor :=
  { include_tests := it
    metrics :=
      { counters :=
          { functions := { safe := 0, uns := 0 }
            exprs := { safe := 0, uns := 0 }
            item_impls := { safe := 0, uns := 0 }
            item_traits := { safe := 0, uns := 0 }
            methods := { safe := 0, uns := 0 } }
        forbids := false }
    scopes := 0
    stat :=
      { expr_prev := 0
        expr_curr := 0
        stmt := 0
        block_type := BlockType.Inner
        block := ""
        has_deref := false }
    output := []
    scope_underflow := false
    delta_underflow := false }

/-- Mirrors `enter_unsafe_scope`: increment the depth counter. -/
def GeigerSynVisitor.enterScope (s : GeigerSynVisitor) : GeigerSynVisitor :=
  { s with scopes := s.scopes + 1 }

/-- Mirrors `init_unsafe_stat`: overwrite shape, rendered text,
baseline expression count (the current inside-bucket total of the
expression counter) and statement count of the single statistics slot.
Note that it does not touch `has_deref` or `expr_curr`. -/
def GeigerSynVisitor.initStat (s : GeigerSynVisitor) (bt : BlockType)
    (blk : String) (stmtCount : Nat) : GeigerSynVisitor :=
  { s with stat :=
      { s.stat with
          block_type := bt
          block := blk
          expr_prev := s.metrics.counters.exprs.uns
          stmt := stmtCount } }

/-- The line printed by `UnsafeStat::stat` from the current record. -/
def RegionStat.line (st : RegionStat) : Line :=
  { block := st.block
    block_type := st.block_type
    expr_delta := st.expr_curr - st.expr_prev
    stmt := st.stmt
    deref := st.has_deref }

/-- Mirrors `UnsafeStat::stat`: print the line (append it to the ghost
output), record whether the delta subtraction would have wrapped, and
leave `has_deref` false afterwards (the source clears it exactly when
it was set, so it is false either way on return). -/
def GeigerSynVisitor.emitStat (s : GeigerSynVisitor) : GeigerSynVisitor :=
  { s with
      output := s.output ++ [s.stat.line]
      delta_underflow :=
        s.delta_underflow || decide (s.stat.expr_curr < s.stat.expr_prev)
      stat := { s.stat with has_deref := false } }

/-- Mirrors `exit_unsafe_scope`: decrement the depth counter (ghost
flag records a decrement at zero), record the final expression count
into `expr_curr`, then print the diagnostic line. -/
def GeigerSynVisitor.exitScope (s : GeigerSynVisitor) : GeigerSynVisitor :=
  GeigerSynVisitor.emitStat
    { s with
        scope_underflow := s.scope_underflow || decide (s.scopes = 0)
        scopes := s.scopes - 1
        stat := { s.stat with expr_curr := s.metrics.counters.exprs.uns } }

/-- The expression-count step of `visit_expr`'s default arm:
`self.metrics.counters.exprs.count(self.unsafe_scopes > 0)`. -/
def GeigerSynVisitor.countExpr (s : GeigerSynVisitor) : GeigerSynVisitor :=
  { s with metrics.counters.exprs :=
      s.metrics.counters.exprs.count (decide (0 < s.scopes)) }

/-- The dereference check at the top of `visit_expr_unary`: when the
depth counter is positive and the operator is the raw-pointer
dereference, set `has_deref`; otherwise change nothing. -/
def GeigerSynVisitor.derefCheck (s : GeigerSynVisitor) (op : GUnOp) :
    GeigerSynVisitor :=
  if 0 < s.scopes then
    (if op = GUnOp.deref then
      { s with stat := { s.stat with has_deref := true } }
    else s)
  else s

mutual

/-- Mirrors `visit_expr`: an `Expr::Unsafe` gets the scope dance (the
body of `visit_expr_unsafe` is written inline here so that the
recursion is structural; the wrapper `visitExprU` below restores the
source's factoring), paths and literals are ignored entirely, every
other expression is counted under the current depth and then recursed
into (through the overridden `visit_expr_unary`, likewise inlined here
and restored as `visitExprUnary` below). -/
def visitExpr (s : GeigerSynVisitor) : GExpr → GeigerSynVisitor
  | GExpr.ublock src stmts =>
      GeigerSynVisitor.exitScope
        (visitStmts
          (GeigerSynVisitor.initStat (GeigerSynVisitor.enterScope s)
            BlockType.Inner src stmts.length)
          stmts)
  | GExpr.path _ => s
  | GExpr.lit _ => s
  | GExpr.unary op e =>
      visitExpr
        (GeigerSynVisitor.derefCheck (GeigerSynVisitor.countExpr s) op) e
  | GExpr.call fe args =>
      visitExprs (visitExpr (GeigerSynVisitor.countExpr s) fe) args
  | GExpr.blockE stmts => visitStmts (GeigerSynVisitor.countExpr s) stmts
  | GExpr.other es => visitExprs (GeigerSynVisitor.countExpr s) es

/-- Statement visit: expression statements and `let` initialisers go
through `visit_expr`; nested items go through the item visit. -/
def visitStmt (s : GeigerSynVisitor) : GStmt → GeigerSynVisitor
  | GStmt.exprS e => visitExpr s e
  | GStmt.localNone => s
  | GStmt.localSome e => visitExpr s e
  | GStmt.itemS i => visitItem s i

/-- Visit a statement list in order. -/
def visitStmts (s : GeigerSynVisitor) : GStmts → GeigerSynVisitor
  | GStmts.nil => s
  | GStmts.cons st ss => visitStmts (visitStmt s st) ss

/-- Visit an expression list in order. -/
def visitExprs (s : GeigerSynVisitor) : GExprs → GeigerSynVisitor
  | GExprs.nil => s
  | GExprs.cons e es => visitExprs (visitExpr s e) es

/-- Mirrors `visit_item_fn`, `visit_item_mod`, `visit_item_impl` and
`visit_item_trait`.  A test function or test module is skipped whole
when the policy excludes tests.  A function whose signature carries
the direct marker or whose attributes carry the attribute marker
initialises the statistics slot (shape `Function`) and enters a scope;
the declaration is then counted with that same marker flag; the body
is visited; and only the direct marker closes the scope on return.
Impl blocks and traits are counted from their own declaration-level
marker and never touch the depth counter. -/
def visitItem (s : GeigerSynVisitor) : GItem → GeigerSynVisitor
  | GItem.fnItem isTest su au src body =>
      if s.include_tests = IncludeTests.no ∧ isTest = true then s
      else
        let uFn := su || au
        let s1 :=
          if uFn = true then
            GeigerSynVisitor.enterScope
              (GeigerSynVisitor.initStat s BlockType.Function src body.length)
          else s
        let s2 :=
          { s1 with metrics.counters.functions :=
              s1.metrics.counters.functions.count uFn }
        let s3 := visitStmts s2 body
        if su = true then GeigerSynVisitor.exitScope s3 else s3
  | GItem.modEmpty _ => s
  | GItem.modItem isTest items =>
      if s.include_tests = IncludeTests.no ∧ isTest = true then s
      else visitItems s items
  | GItem.implItem isU ms =>
      visitMethods
        { s with metrics.counters.item_impls :=
            s.metrics.counters.item_impls.count isU } ms
  | GItem.traitItem isU =>
      { s with metrics.counters.item_traits :=
          s.metrics.counters.item_traits.count isU }

/-- Visit an item list in order. -/
def visitItems (s : GeigerSynVisitor) : GItems → GeigerSynVisitor
  | GItems.nil => s
  | GItems.cons i is_ => visitItems (visitItem s i) is_

/-- Mirrors `visit_impl_item_method`: symmetric to the function case
but driven purely by the direct marker, which both opens (shape
`Method`) and closes the region. -/
def visitMethod (s : GeigerSynVisitor) : GMethod → GeigerSynVisitor
  | GMethod.mk su src body =>
      let s1 :=
        if su = true then
          GeigerSynVisitor.enterScope
            (GeigerSynVisitor.initStat s BlockType.Method src body.length)
        else s
      let s2 :=
        { s1 with metrics.counters.methods :=
            s1.metrics.counters.methods.count su }
      let s3 := visitStmts s2 body
      if su = true then GeigerSynVisitor.exitScope s3 else s3

/-- Visit a method list in order. -/
def visitMethods (s : GeigerSynVisitor) : GMethods → GeigerSynVisitor
  | GMethods.nil => s
  | GMethods.cons m ms => visitMethods (visitMethod s m) ms

end

/-- Mirrors `visit_expr_unsafe`: initialise the statistics slot with
shape `Inner`, the rendered block text and the direct statement count,
then visit each statement. -/
def visitExprU (s : GeigerSynVisitor) (src : String) (stmts : GStmts) :
    GeigerSynVisitor :=
  visitStmts (GeigerSynVisitor.initStat s BlockType.Inner src stmts.length)
    stmts

/-- Mirrors `visit_expr_unary`: the dereference check followed by the
default recursion into the operand. -/
def visitExprUnary (s : GeigerSynVisitor) (op : GUnOp) (e : GExpr) :
    GeigerSynVisitor :=
  visitExpr (s.derefCheck op) e

/-- A parsed source file: the (externally computed, per the spec)
`file_forbids_unsafe` flag and the top-level items. -/
structure GFile where
  forbids : Bool
  items : GItems

/-- Mirrors `visit_file`: store the file-level forbids flag, then walk
every top-level item. -/
def visitFile (s : GeigerSynVisitor) (f : GFile) : GeigerSynVisitor :=
  visitItems { s with metrics.forbids := f.forbids } f.items

/-- A full scan of one file from a fresh visitor, as the caller
performs it. -/
def scanFile (it : IncludeTests) (f : GFile) : GeigerSynVisitor :=
  visitFile (GeigerSynVisitor.new it) f

mutual

/-- Number of scope-enter events in an expression that are never
matched by a scope-exit event: an attribute-marked-but-not-directly
marked function opens a region for its body that `visit_item_fn` never
closes; everything else is balanced. -/
def exprLeaks (it : IncludeTests) : GExpr → Nat
  | GExpr.ublock _ stmts => stmtsLeaks it stmts
  | GExpr.path _ => 0
  | GExpr.lit _ => 0
  | GExpr.unary _ e => exprLeaks it e
  | GExpr.call fe args => exprLeaks it fe + exprsLeaks it args
  | GExpr.blockE stmts => stmtsLeaks it stmts
  | GExpr.other es => exprsLeaks it es

/-- Unmatched scope-enter events in an expression list. -/
def exprsLeaks (it : IncludeTests) : GExprs → Nat
  | GExprs.nil => 0
  | GExprs.cons e es => exprLeaks it e + exprsLeaks it es

/-- Unmatched scope-enter events in a statement. -/
def stmtLeaks (it : IncludeTests) : GStmt → Nat
  | GStmt.exprS e => exprLeaks it e
  | GStmt.localNone => 0
  | GStmt.localSome e => exprLeaks it e
  | GStmt.itemS i => itemLeaks it i

/-- Unmatched scope-enter events in a statement list. -/
def stmtsLeaks (it : IncludeTests) : GStmts → Nat
  | GStmts.nil => 0
  | GStmts.cons st ss => stmtLeaks it st + stmtsLeaks it ss

/-- Unmatched scope-enter events in an item: one for each visited
function declaration carrying the attribute marker without the direct
marker, plus whatever its visited subtrees contribute; skipped test
functions and modules contribute nothing. -/
def itemLeaks (it : IncludeTests) : GItem → Nat
  | GItem.fnItem isTest su au _ body =>
      if it = IncludeTests.no ∧ isTest = true then 0
      else (if su = false ∧ au = true then 1 else 0) + stmtsLeaks it body
  | GItem.modEmpty _ => 0
  | GItem.modItem isTest items =>
      if it = IncludeTests.no ∧ isTest = true then 0 else itemsLeaks it items
  | GItem.implItem _ ms => methodsLeaks it ms
  | GItem.traitItem _ => 0

/-- Unmatched scope-enter events in an item list. -/
def itemsLeaks (it : IncludeTests) : GItems → Nat
  | GItems.nil => 0
  | GItems.cons i is_ => itemLeaks it i + itemsLeaks it is_

/-- Unmatched scope-enter events in a method (its body only: methods
themselves always close what they open). -/
def methodLeaks (it : IncludeTests) : GMethod → Nat
  | GMethod.mk _ _ body => stmtsLeaks it body

/-- Unmatched scope-enter events in a method list. -/
def methodsLeaks (it : IncludeTests) : GMethods → Nat
  | GMethods.nil => 0
  | GMethods.cons m ms => methodLeaks it m + methodsLeaks it ms

end

/-- Unmatched scope-enter events in a whole file. -/
def fileLeaks (it : IncludeTests) (f : GFile) : Nat :=
  itemsLeaks it f.items

/-- The baseline invariant: the recorded baseline expression count
never exceeds the current inside-bucket expression total. -/
def PrevLe (s : GeigerSynVisitor) : Prop :=
  s.stat.expr_prev ≤ s.metrics.counters.exprs.uns

/-- Relation between the state before and after any visit step.
First component: the output grows by a suffix `ex`, and when the
dereference flag was set before the step, the first newly printed line
carries the marker, while if nothing was printed the flag is still set
afterwards.  Second and third components: the baseline invariant is
preserved and, under it, the delta-underflow flag is unchanged. -/
def VisitStep (s t : GeigerSynVisitor) : Prop :=
  (∃ ex, t.output = s.output ++ ex ∧
    (s.stat.has_deref = true →
      (∀ l, ex.head? = some l → l.deref = true) ∧
      (ex = [] → t.stat.has_deref = true))) ∧
  (PrevLe s → PrevLe t) ∧
  (PrevLe s → t.delta_underflow = s.delta_underflow)

mutual

/-- No function declaration occurs anywhere in the expression. -/
def exprFF : GExpr → Bool
  | GExpr.ublock _ stmts => stmtsFF stmts
  | GExpr.path _ => true
  | GExpr.lit _ => true
  | GExpr.unary _ e => exprFF e
  | GExpr.call fe args => exprFF fe && exprsFF args
  | GExpr.blockE stmts => stmtsFF stmts
  | GExpr.other es => exprsFF es

/-- No function declaration occurs anywhere in the expression list. -/
def exprsFF : GExprs → Bool
  | GExprs.nil => true
  | GExprs.cons e es => exprFF e && exprsFF es

/-- No function declaration occurs anywhere in the statement. -/
def stmtFF : GStmt → Bool
  | GStmt.exprS e => exprFF e
  | GStmt.localNone => true
  | GStmt.localSome e => exprFF e
  | GStmt.itemS i => itemFF i

/-- No function declaration occurs anywhere in the statement list. -/
def stmtsFF : GStmts → Bool
  | GStmts.nil => true
  | GStmts.cons st ss => stmtFF st && stmtsFF ss

/-- No function declaration occurs anywhere in the item. -/
def itemFF : GItem → Bool
  | GItem.fnItem _ _ _ _ _ => false
  | GItem.modEmpty _ => true
  | GItem.modItem _ items => itemsFF items
  | GItem.implItem _ ms => methodsFF ms
  | GItem.traitItem _ => true

/-- No function declaration occurs anywhere in the item list. -/
def itemsFF : GItems → Bool
  | GItems.nil => true
  | GItems.cons i is_ => itemFF i && itemsFF is_

/-- No function declaration occurs anywhere in the method body. -/
def methodFF : GMethod → Bool
  | GMethod.mk _ _ body => stmtsFF body

/-- No function declaration occurs anywhere in the method list. -/
def methodsFF : GMethods → Bool
  | GMethods.nil => true
  | GMethods.cons m ms => methodFF m && methodsFF ms

end

mutual

/-- No trust region occurs anywhere in the expression: no inline
block, and every nested function or method is unmarked. -/
def exprRF : GExpr → Bool
  | GExpr.ublock _ _ => false
  | GExpr.path _ => true
  | GExpr.lit _ => true
  | GExpr.unary _ e => exprRF e
  | GExpr.call fe args => exprRF fe && exprsRF args
  | GExpr.blockE stmts => stmtsRF stmts
  | GExpr.other es => exprsRF es

/-- No trust region occurs anywhere in the expression list. -/
def exprsRF : GExprs → Bool
  | GExprs.nil => true
  | GExprs.cons e es => exprRF e && exprsRF es

/-- No trust region occurs anywhere in the statement. -/
def stmtRF : GStmt → Bool
  | GStmt.exprS e => exprRF e
  | GStmt.localNone => true
  | GStmt.localSome e => exprRF e
  | GStmt.itemS i => itemRF i

/-- No trust region occurs anywhere in the statement list. -/
def stmtsRF : GStmts → Bool
  | GStmts.nil => true
  | GStmts.cons st ss => stmtRF st && stmtsRF ss

/-- No trust region occurs anywhere in the item. -/
def itemRF : GItem → Bool
  | GItem.fnItem _ su au _ body => !su && !au && stmtsRF body
  | GItem.modEmpty _ => true
  | GItem.modItem _ items => itemsRF items
  | GItem.implItem _ ms => methodsRF ms
  | GItem.traitItem _ => true

/-- No trust region occurs anywhere in the item list. -/
def itemsRF : GItems → Bool
  | GItems.nil => true
  | GItems.cons i is_ => itemRF i && itemsRF is_

/-- No trust region occurs anywhere in the method. -/
def methodRF : GMethod → Bool
  | GMethod.mk su _ body => !su && stmtsRF body

/-- No trust region occurs anywhere in the method list. -/
def methodsRF : GMethods → Bool
  | GMethods.nil => true
  | GMethods.cons m ms => methodRF m && methodsRF ms

end

/-- A file with a single top-level directly-marked function: the
input refuting C1. -/
def exFileC1 : GFile :=
  { forbids := false
    items := GItems.cons (GItem.fnItem false true false "fnU" GStmts.nil)
      GItems.nil }

/-- A file with a single attribute-only-marked function: the input
refuting C2. -/
def exFileC2 : GFile :=
  { forbids := false
    items := GItems.cons (GItem.fnItem false false true "g" GStmts.nil)
      GItems.nil }

/-- An attribute-only-marked function whose body declares another
attribute-only-marked function: the input refuting C3. -/
def exItemC3 : GItem :=
  GItem.fnItem false false true "f"
    (GStmts.cons
      (GStmt.itemS (GItem.fnItem false false true "g" GStmts.nil))
      GStmts.nil)

/-- A file whose first item is an attribute-only-marked function
containing a dereference (opening a region that is never closed, so
the dereference flag is set and never reported) followed by a safe
function containing an empty directly-marked block: the input refuting
C4. -/
def exFileC4 : GFile :=
  { forbids := false
    items := GItems.cons
      (GItem.fnItem false false true "f"
        (GStmts.cons (GStmt.exprS (GExpr.unary GUnOp.deref (GExpr.path "p")))
          GStmts.nil))
      (GItems.cons
        (GItem.fnItem false false false "g"
          (GStmts.cons (GStmt.exprS (GExpr.ublock "blk" GStmts.nil))
            GStmts.nil))
        GItems.nil) }

/-- A directly-marked block containing a dereference followed by a
nested empty directly-marked block: the input refuting the attribution
part of C5. -/
def exprC5 : GExpr :=
  GExpr.ublock "outer"
    (GStmts.cons (GStmt.exprS (GExpr.unary GUnOp.deref (GExpr.path "p")))
      (GStmts.cons (GStmt.exprS (GExpr.ublock "inner" GStmts.nil)) GStmts.nil))

/-- A fresh visitor whose dereference flag is set, used to witness the
marker-attribution part of the amended C5. -/
def flagVisitorC5 : GeigerSynVisitor :=
  { GeigerSynVisitor.new IncludeTests.yes with
      stat := { (GeigerSynVisitor.new IncludeTests.yes).stat with
          has_deref := true } }

/-- The C7 scenario file: one safe function whose body is one
directly-marked block containing one dereference expression and two
statements. -/
def exFileC7 : GFile :=
  { forbids := false
    items := GItems.cons
      (GItem.fnItem false false false "fn foo"
        (GStmts.cons
          (GStmt.exprS
            (GExpr.ublock "blk"
              (GStmts.cons
                (GStmt.exprS (GExpr.unary GUnOp.deref (GExpr.path "p")))
                (GStmts.cons (GStmt.exprS (GExpr.lit 0)) GStmts.nil))))
          GStmts.nil))
      GItems.nil }

/-- The `Expr::Unsafe` arm of `visit_expr` is enter-scope, then
`visit_expr_unsafe`, then exit-scope. -/
theorem visitExpr_ublock (s : GeigerSynVisitor) (src : String)
    (stmts : GStmts) :
    visitExpr s (GExpr.ublock src stmts) =
      GeigerSynVisitor.exitScope
        (visitExprU (GeigerSynVisitor.enterScope s) src stmts) := rfl

/-- The unary arm of `visit_expr` counts the node and then dispatches
to `visit_expr_unary`. -/
theorem visitExpr_unary (s : GeigerSynVisitor) (op : GUnOp) (e : GExpr) :
    visitExpr s (GExpr.unary op e) =
      visitExprUnary (GeigerSynVisitor.countExpr s) op e := rfl

@[simp] theorem enterScope_include (s : GeigerSynVisitor) :
    (s.enterScope).include_tests = s.include_tests := rfl

@[simp] theorem enterScope_scopes (s : GeigerSynVisitor) :
    (s.enterScope).scopes = s.scopes + 1 := rfl

@[simp] theorem enterScope_scope_underflow (s : GeigerSynVisitor) :
    (s.enterScope).scope_underflow = s.scope_underflow := rfl

@[simp] theorem enterScope_delta_underflow (s : GeigerSynVisitor) :
    (s.enterScope).delta_underflow = s.delta_underflow := rfl

@[simp] theorem enterScope_metrics (s : GeigerSynVisitor) :
    (s.enterScope).metrics = s.metrics := rfl

@[simp] theorem enterScope_output (s : GeigerSynVisitor) :
    (s.enterScope).output = s.output := rfl

@[simp] theorem enterScope_stat (s : GeigerSynVisitor) :
    (s.enterScope).stat = s.stat := rfl

@[simp] theorem initStat_include (s : GeigerSynVisitor) (bt : BlockType)
    (blk : String) (n : Nat) :
    (s.initStat bt blk n).include_tests = s.include_tests := rfl

@[simp] theorem initStat_scopes (s : GeigerSynVisitor) (bt : BlockType)
    (blk : String) (n : Nat) : (s.initStat bt blk n).scopes = s.scopes := rfl

@[simp] theorem initStat_scope_underflow (s : GeigerSynVisitor)
    (bt : BlockType) (blk : String) (n : Nat) :
    (s.initStat bt blk n).scope_underflow = s.scope_underflow := rfl

@[simp] theorem initStat_delta_underflow (s : GeigerSynVisitor)
    (bt : BlockType) (blk : String) (n : Nat) :
    (s.initStat bt blk n).delta_underflow = s.delta_underflow := rfl

@[simp] theorem initStat_metrics (s : GeigerSynVisitor) (bt : BlockType)
    (blk : String) (n : Nat) : (s.initStat bt blk n).metrics = s.metrics := rfl

@[simp] theorem initStat_output (s : GeigerSynVisitor) (bt : BlockType)
    (blk : String) (n : Nat) : (s.initStat bt blk n).output = s.output := rfl

@[simp] theorem initStat_has_deref (s : GeigerSynVisitor) (bt : BlockType)
    (blk : String) (n : Nat) :
    (s.initStat bt blk n).stat.has_deref = s.stat.has_deref := rfl

@[simp] theorem initStat_expr_prev (s : GeigerSynVisitor) (bt : BlockType)
    (blk : String) (n : Nat) :
    (s.initStat bt blk n).stat.expr_prev = s.metrics.counters.exprs.uns := rfl

@[simp] theorem countExpr_include (s : GeigerSynVisitor) :
    (s.countExpr).include_tests = s.include_tests := rfl

@[simp] theorem countExpr_scopes (s : GeigerSynVisitor) :
    (s.countExpr).scopes = s.scopes := rfl

@[simp] theorem countExpr_scope_underflow (s : GeigerSynVisitor) :
    (s.countExpr).scope_underflow = s.scope_underflow := rfl

@[simp] theorem countExpr_delta_underflow (s : GeigerSynVisitor) :
    (s.countExpr).delta_underflow = s.delta_underflow := rfl

@[simp] theorem countExpr_output (s : GeigerSynVisitor) :
    (s.countExpr).output = s.output := rfl

@[simp] theorem countExpr_stat (s : GeigerSynVisitor) :
    (s.countExpr).stat = s.stat := rfl

@[simp] theorem countExpr_forbids (s : GeigerSynVisitor) :
    (s.countExpr).metrics.forbids = s.metrics.forbids := rfl

@[simp] theorem countExpr_functions (s : GeigerSynVisitor) :
    (s.countExpr).metrics.counters.functions =
      s.metrics.counters.functions := rfl

@[simp] theorem countExpr_exprs (s : GeigerSynVisitor) :
    (s.countExpr).metrics.counters.exprs =
      s.metrics.counters.exprs.count (decide (0 < s.scopes)) := rfl

@[simp] theorem exitScope_include (t : GeigerSynVisitor) :
    (t.exitScope).include_tests = t.include_tests := rfl

@[simp] theorem exitScope_scopes (t : GeigerSynVisitor) :
    (t.exitScope).scopes = t.scopes - 1 := rfl

@[simp] theorem exitScope_scope_underflow (t : GeigerSynVisitor) :
    (t.exitScope).scope_underflow =
      (t.scope_underflow || decide (t.scopes = 0)) := rfl

@[simp] theorem exitScope_delta_underflow (t : GeigerSynVisitor) :
    (t.exitScope).delta_underflow =
      (t.delta_underflow ||
        decide (t.metrics.counters.exprs.uns < t.stat.expr_prev)) := rfl

@[simp] theorem exitScope_metrics (t : GeigerSynVisitor) :
    (t.exitScope).metrics = t.metrics := rfl

@[simp] theorem exitScope_output (t : GeigerSynVisitor) :
    (t.exitScope).output = t.output ++
      [{ block := t.stat.block
         block_type := t.stat.block_type
         expr_delta := t.metrics.counters.exprs.uns - t.stat.expr_prev
         stmt := t.stat.stmt
         deref := t.stat.has_deref }] := rfl

@[simp] theorem exitScope_has_deref (t : GeigerSynVisitor) :
    (t.exitScope).stat.has_deref = false := rfl

@[simp] theorem exitScope_expr_prev (t : GeigerSynVisitor) :
    (t.exitScope).stat.expr_prev = t.stat.expr_prev := rfl

@[simp] theorem derefCheck_include (s : GeigerSynVisitor) (op : GUnOp) :
    (s.derefCheck op).include_tests = s.include_tests := by
  unfold GeigerSynVisitor.derefCheck; split <;> [skip; rfl]; split <;> rfl

@[simp] theorem derefCheck_scopes (s : GeigerSynVisitor) (op : GUnOp) :
    (s.derefCheck op).scopes = s.scopes := by
  unfold GeigerSynVisitor.derefCheck; split <;> [skip; rfl]; split <;> rfl

@[simp] theorem derefCheck_scope_underflow (s : GeigerSynVisitor)
    (op : GUnOp) : (s.derefCheck op).scope_underflow = s.scope_underflow := by
  unfold GeigerSynVisitor.derefCheck; split <;> [skip; rfl]; split <;> rfl

@[simp] theorem derefCheck_delta_underflow (s : GeigerSynVisitor)
    (op : GUnOp) : (s.derefCheck op).delta_underflow = s.delta_underflow := by
  unfold GeigerSynVisitor.derefCheck; split <;> [skip; rfl]; split <;> rfl

@[simp] theorem derefCheck_metrics (s : GeigerSynVisitor) (op : GUnOp) :
    (s.derefCheck op).metrics = s.metrics := by
  unfold GeigerSynVisitor.derefCheck; split <;> [skip; rfl]; split <;> rfl

@[simp] theorem derefCheck_output (s : GeigerSynVisitor) (op : GUnOp) :
    (s.derefCheck op).output = s.output := by
  unfold GeigerSynVisitor.derefCheck; split <;> [skip; rfl]; split <;> rfl

@[simp] theorem derefCheck_expr_prev (s : GeigerSynVisitor) (op : GUnOp) :
    (s.derefCheck op).stat.expr_prev = s.stat.expr_prev := by
  unfold GeigerSynVisitor.derefCheck; split <;> [skip; rfl]; split <;> rfl

theorem derefCheck_has_deref_of_true (s : GeigerSynVisitor) (op : GUnOp)
    (h : s.stat.has_deref = true) :
    (s.derefCheck op).stat.has_deref = true := by
  unfold GeigerSynVisitor.derefCheck
  split <;> [skip; exact h]; split <;> [rfl; exact h]

mutual

/-- Depth invariant for expressions: a visit preserves the policy and
the underflow flag and changes the depth counter by exactly the
expression's leak count. -/
theorem visitExpr_spec1 (s : GeigerSynVisitor) (e : GExpr) :
    (visitExpr s e).include_tests = s.include_tests ∧
    (visitExpr s e).scopes = s.scopes + exprLeaks s.include_tests e ∧
    (visitExpr s e).scope_underflow = s.scope_underflow := by
  cases e with
  | ublock src stmts =>
      obtain ⟨h1, h2, h3⟩ := visitStmts_spec1
        (GeigerSynVisitor.initStat (GeigerSynVisitor.enterScope s)
          BlockType.Inner src stmts.length) stmts
      simp only [initStat_include, enterScope_include, initStat_scopes,
        enterScope_scopes, initStat_scope_underflow,
        enterScope_scope_underflow] at h1 h2 h3
      refine ⟨?_, ?_, ?_⟩
      · simpa only [visitExpr, exitScope_include]
      · simp only [visitExpr, exitScope_scopes, h2, exprLeaks]
        omega
      · simp only [visitExpr, exitScope_scope_underflow, h2, h3]
        have hne : s.scopes + 1 + stmtsLeaks s.include_tests stmts ≠ 0 := by
          omega
        simp [hne]
  | path nm => simp [visitExpr, exprLeaks]
  | lit n => simp [visitExpr, exprLeaks]
  | unary op e =>
      obtain ⟨h1, h2, h3⟩ :=
        visitExpr_spec1 ((GeigerSynVisitor.countExpr s).derefCheck op) e
      simp only [derefCheck_include, countExpr_include, derefCheck_scopes,
        countExpr_scopes, derefCheck_scope_underflow,
        countExpr_scope_underflow] at h1 h2 h3
      exact ⟨h1, by simp only [visitExpr, h2, exprLeaks], h3⟩
  | call fe args =>
      obtain ⟨h1, h2, h3⟩ := visitExpr_spec1 (GeigerSynVisitor.countExpr s) fe
      obtain ⟨g1, g2, g3⟩ :=
        visitExprs_spec1 (visitExpr (GeigerSynVisitor.countExpr s) fe) args
      simp only [countExpr_include, countExpr_scopes,
        countExpr_scope_underflow] at h1 h2 h3
      refine ⟨?_, ?_, ?_⟩
      · simpa only [visitExpr, h1] using g1
      · simp only [visitExpr, g2, h1, h2, exprLeaks]
        omega
      · simp only [visitExpr]
        rw [g3, h3]
  | blockE stmts =>
      obtain ⟨h1, h2, h3⟩ := visitStmts_spec1 (GeigerSynVisitor.countExpr s)
        stmts
      simp only [countExpr_include, countExpr_scopes,
        countExpr_scope_underflow] at h1 h2 h3
      exact ⟨h1, by simp only [visitExpr, h2, exprLeaks], h3⟩
  | other es =>
      obtain ⟨h1, h2, h3⟩ := visitExprs_spec1 (GeigerSynVisitor.countExpr s)
        es
      simp only [countExpr_include, countExpr_scopes,
        countExpr_scope_underflow] at h1 h2 h3
      exact ⟨h1, by simp only [visitExpr, h2, exprLeaks], h3⟩

/-- Depth invariant for expression lists. -/
theorem visitExprs_spec1 (s : GeigerSynVisitor) (es : GExprs) :
    (visitExprs s es).include_tests = s.include_tests ∧
    (visitExprs s es).scopes = s.scopes + exprsLeaks s.include_tests es ∧
    (visitExprs s es).scope_underflow = s.scope_underflow := by
  cases es with
  | nil => simp [visitExprs, exprsLeaks]
  | cons e es =>
      obtain ⟨h1, h2, h3⟩ := visitExpr_spec1 s e
      obtain ⟨g1, g2, g3⟩ := visitExprs_spec1 (visitExpr s e) es
      refine ⟨?_, ?_, ?_⟩
      · simp only [visitExprs]; rw [g1, h1]
      · simp only [visitExprs]; rw [g2, h1, h2, exprsLeaks]; omega
      · simp only [visitExprs]; rw [g3, h3]

/-- Depth invariant for statements. -/
theorem visitStmt_spec1 (s : GeigerSynVisitor) (st : GStmt) :
    (visitStmt s st).include_tests = s.include_tests ∧
    (visitStmt s st).scopes = s.scopes + stmtLeaks s.include_tests st ∧
    (visitStmt s st).scope_underflow = s.scope_underflow := by
  cases st with
  | exprS e => simpa only [visitStmt, stmtLeaks] using visitExpr_spec1 s e
  | localNone => simp [visitStmt, stmtLeaks]
  | localSome e => simpa only [visitStmt, stmtLeaks] using visitExpr_spec1 s e
  | itemS i => simpa only [visitStmt, stmtLeaks] using visitItem_spec1 s i

/-- Depth invariant for statement lists. -/
theorem visitStmts_spec1 (s : GeigerSynVisitor) (ss : GStmts) :
    (visitStmts s ss).include_tests = s.include_tests ∧
    (visitStmts s ss).scopes = s.scopes + stmtsLeaks s.include_tests ss ∧
    (visitStmts s ss).scope_underflow = s.scope_underflow := by
  cases ss with
  | nil => simp [visitStmts, stmtsLeaks]
  | cons st ss =>
      obtain ⟨h1, h2, h3⟩ := visitStmt_spec1 s st
      obtain ⟨g1, g2, g3⟩ := visitStmts_spec1 (visitStmt s st) ss
      refine ⟨?_, ?_, ?_⟩
      · simp only [visitStmts]; rw [g1, h1]
      · simp only [visitStmts]; rw [g2, h1, h2, stmtsLeaks]; omega
      · simp only [visitStmts]; rw [g3, h3]

/-- Depth invariant for items: every visited function declaration
carrying the attribute marker without the direct marker adds one to
the depth counter; everything else is balanced; the underflow flag is
untouched because every exit happens at positive depth. -/
theorem visitItem_spec1 (s : GeigerSynVisitor) (i : GItem) :
    (visitItem s i).include_tests = s.include_tests ∧
    (visitItem s i).scopes = s.scopes + itemLeaks s.include_tests i ∧
    (visitItem s i).scope_underflow = s.scope_underflow := by
  cases i with
  | fnItem isTest su au src body =>
      by_cases hskip : s.include_tests = IncludeTests.no ∧ isTest = true
      · simp [visitItem, itemLeaks, hskip]
      · cases su <;> cases au <;> refine ⟨?_, ?_, ?_⟩ <;>
          simp only [visitItem, itemLeaks] <;> simp [hskip] <;>
          first
          | (rw [(visitStmts_spec1 _ body).1])
          | (rw [(visitStmts_spec1 _ body).2.2, (visitStmts_spec1 _ body).2.1]
             try simp
             try omega)
          | (rw [(visitStmts_spec1 _ body).2.1]
             try simp
             try omega)
          | (rw [(visitStmts_spec1 _ body).2.2])
  | modEmpty isTest => simp [visitItem, itemLeaks]
  | modItem isTest items =>
      by_cases hskip : s.include_tests = IncludeTests.no ∧ isTest = true
      · simp [visitItem, itemLeaks, hskip]
      · refine ⟨?_, ?_, ?_⟩
        · simp only [visitItem]
          simp [hskip]
          rw [(visitItems_spec1 _ items).1]
        · simp only [visitItem, itemLeaks]
          simp [hskip]
          rw [(visitItems_spec1 _ items).2.1]
        · simp only [visitItem]
          simp [hskip]
          rw [(visitItems_spec1 _ items).2.2]
  | implItem isU ms =>
      refine ⟨?_, ?_, ?_⟩
      · simp only [visitItem]
        rw [(visitMethods_spec1 _ ms).1]
      · simp only [visitItem, itemLeaks]
        rw [(visitMethods_spec1 _ ms).2.1]
      · simp only [visitItem]
        rw [(visitMethods_spec1 _ ms).2.2]
  | traitItem isU => simp [visitItem, itemLeaks]

/-- Depth invariant for item lists. -/
theorem visitItems_spec1 (s : GeigerSynVisitor) (is_ : GItems) :
    (visitItems s is_).include_tests = s.include_tests ∧
    (visitItems s is_).scopes = s.scopes + itemsLeaks s.include_tests is_ ∧
    (visitItems s is_).scope_underflow = s.scope_underflow := by
  cases is_ with
  | nil => simp [visitItems, itemsLeaks]
  | cons i is_ =>
      obtain ⟨h1, h2, h3⟩ := visitItem_spec1 s i
      obtain ⟨g1, g2, g3⟩ := visitItems_spec1 (visitItem s i) is_
      refine ⟨?_, ?_, ?_⟩
      · simp only [visitItems]; rw [g1, h1]
      · simp only [visitItems]; rw [g2, h1, h2, itemsLeaks]; omega
      · simp only [visitItems]; rw [g3, h3]

/-- Depth invariant for methods: always balanced. -/
theorem visitMethod_spec1 (s : GeigerSynVisitor) (m : GMethod) :
    (visitMethod s m).include_tests = s.include_tests ∧
    (visitMethod s m).scopes = s.scopes + methodLeaks s.include_tests m ∧
    (visitMethod s m).scope_underflow = s.scope_underflow := by
  cases m with
  | mk su src body =>
      cases su <;> refine ⟨?_, ?_, ?_⟩ <;>
        simp only [visitMethod, methodLeaks] <;> simp <;>
        first
        | (rw [(visitStmts_spec1 _ body).1])
        | (rw [(visitStmts_spec1 _ body).2.2, (visitStmts_spec1 _ body).2.1]
           try simp
           try omega)
        | (rw [(visitStmts_spec1 _ body).2.1]
           try simp
           try omega)
        | (rw [(visitStmts_spec1 _ body).2.2])

/-- Depth invariant for method lists. -/
theorem visitMethods_spec1 (s : GeigerSynVisitor) (ms : GMethods) :
    (visitMethods s ms).include_tests = s.include_tests ∧
    (visitMethods s ms).scopes = s.scopes + methodsLeaks s.include_tests ms ∧
    (visitMethods s ms).scope_underflow = s.scope_underflow := by
  cases ms with
  | nil => simp [visitMethods, methodsLeaks]
  | cons m ms =>
      obtain ⟨h1, h2, h3⟩ := visitMethod_spec1 s m
      obtain ⟨g1, g2, g3⟩ := visitMethods_spec1 (visitMethod s m) ms
      refine ⟨?_, ?_, ?_⟩
      · simp only [visitMethods]; rw [g1, h1]
      · simp only [visitMethods]; rw [g2, h1, h2, methodsLeaks]; omega
      · simp only [visitMethods]; rw [g3, h3]

end

theorem VisitStep.refl_self (s : GeigerSynVisitor) : VisitStep s s := by
  refine ⟨⟨[], by simp, ?_⟩, fun h => h, fun _ => rfl⟩
  intro h
  exact ⟨fun l hl => by simp at hl, fun _ => h⟩

theorem VisitStep.trans {s t u : GeigerSynVisitor} (h1 : VisitStep s t)
    (h2 : VisitStep t u) : VisitStep s u := by
  obtain ⟨⟨ex1, ho1, hp1⟩, hl1, hd1⟩ := h1
  obtain ⟨⟨ex2, ho2, hp2⟩, hl2, hd2⟩ := h2
  refine ⟨⟨ex1 ++ ex2, by rw [ho2, ho1, List.append_assoc], ?_⟩,
    fun h => hl2 (hl1 h), fun h => by rw [hd2 (hl1 h), hd1 h]⟩
  intro hs
  cases ex1 with
  | nil =>
      have ht : t.stat.has_deref = true := (hp1 hs).2 rfl
      refine ⟨fun l hl => (hp2 ht).1 l (by simpa using hl), ?_⟩
      intro hnil
      exact (hp2 ht).2 (by simpa using hnil)
  | cons l1 ls1 =>
      refine ⟨fun l hl => ?_, fun hnil => by simp at hnil⟩
      have : l = l1 := by simpa using hl.symm
      exact this ▸ (hp1 hs).1 l1 rfl

/-- A step that prints nothing, can only raise the dereference flag,
and leaves the baseline, the expression counter and the
delta-underflow flag alone, is a `VisitStep`. -/
theorem VisitStep.silent {s t : GeigerSynVisitor}
    (hout : t.output = s.output)
    (hfl : s.stat.has_deref = true → t.stat.has_deref = true)
    (hprev : t.stat.expr_prev = s.stat.expr_prev)
    (hexprs : t.metrics.counters.exprs = s.metrics.counters.exprs)
    (hdelta : t.delta_underflow = s.delta_underflow) : VisitStep s t := by
  refine ⟨⟨[], by simp [hout], ?_⟩, ?_, fun _ => hdelta⟩
  · intro h
    exact ⟨fun l hl => by simp at hl, fun _ => hfl h⟩
  · intro h
    unfold PrevLe at h ⊢
    rw [hprev, hexprs]
    exact h

/-- Counting an expression is a `VisitStep`: the inside-bucket total
can only grow. -/
theorem VisitStep.countE (s : GeigerSynVisitor) :
    VisitStep s s.countExpr := by
  refine ⟨⟨[], by simp, ?_⟩, ?_, fun _ => rfl⟩
  · intro h
    exact ⟨fun l hl => by simp at hl, fun _ => h⟩
  · intro h
    unfold PrevLe at h ⊢
    simp only [countExpr_exprs]
    have : s.metrics.counters.exprs.uns ≤
        (s.metrics.counters.exprs.count (decide (0 < s.scopes))).uns := by
      unfold Count.count
      split <;> simp
    calc s.countExpr.stat.expr_prev = s.stat.expr_prev := rfl
      _ ≤ s.metrics.counters.exprs.uns := h
      _ ≤ _ := this

/-- Entering a scope and initialising the statistics slot (in either
order) is a `VisitStep`: the baseline is reset to the current total. -/
theorem VisitStep.enterInit (s : GeigerSynVisitor) (bt : BlockType)
    (blk : String) (n : Nat) :
    VisitStep s ((s.enterScope).initStat bt blk n) := by
  refine ⟨⟨[], by simp, ?_⟩, ?_, fun _ => rfl⟩
  · intro h
    exact ⟨fun l hl => by simp at hl, fun _ => h⟩
  · intro _
    exact Nat.le_refl _

/-- Initialising the statistics slot and then entering a scope is a
`VisitStep`. -/
theorem VisitStep.initEnter (s : GeigerSynVisitor) (bt : BlockType)
    (blk : String) (n : Nat) :
    VisitStep s ((s.initStat bt blk n).enterScope) := by
  refine ⟨⟨[], by simp, ?_⟩, ?_, fun _ => rfl⟩
  · intro h
    exact ⟨fun l hl => by simp at hl, fun _ => h⟩
  · intro _
    exact Nat.le_refl _

/-- The dereference check is a `VisitStep`. -/
theorem VisitStep.derefC (s : GeigerSynVisitor) (op : GUnOp) :
    VisitStep s (s.derefCheck op) :=
  VisitStep.silent (derefCheck_output s op)
    (derefCheck_has_deref_of_true s op) (derefCheck_expr_prev s op)
    (congrArg (fun m => m.counters.exprs) (derefCheck_metrics s op))
    (derefCheck_delta_underflow s op)

/-- Closing a scope is a `VisitStep`: it prints exactly one line,
whose marker field is the current dereference flag, and under the
baseline invariant the delta subtraction cannot underflow. -/
theorem VisitStep.exit (t : GeigerSynVisitor) : VisitStep t t.exitScope := by
  refine ⟨⟨[{ block := t.stat.block
              block_type := t.stat.block_type
              expr_delta := t.metrics.counters.exprs.uns - t.stat.expr_prev
              stmt := t.stat.stmt
              deref := t.stat.has_deref }], by simp, ?_⟩, ?_, ?_⟩
  · intro h
    refine ⟨fun l hl => ?_, fun hnil => by simp at hnil⟩
    have hl2 : l = { block := t.stat.block
                     block_type := t.stat.block_type
                     expr_delta :=
                       t.metrics.counters.exprs.uns - t.stat.expr_prev
                     stmt := t.stat.stmt
                     deref := t.stat.has_deref } := by simpa using hl.symm
    rw [hl2]
    exact h
  · intro h
    unfold PrevLe at h ⊢
    simpa using h
  · intro h
    unfold PrevLe at h
    simp only [exitScope_delta_underflow]
    have : ¬ (t.metrics.counters.exprs.uns < t.stat.expr_prev) :=
      Nat.not_lt.mpr h
    simp [this]

mutual

/-- Every expression visit is a `VisitStep`. -/
theorem visitExpr_step (s : GeigerSynVisitor) (e : GExpr) :
    VisitStep s (visitExpr s e) := by
  cases e with
  | ublock src stmts =>
      simp only [visitExpr]
      exact VisitStep.trans
        (VisitStep.enterInit s BlockType.Inner src stmts.length)
        (VisitStep.trans (visitStmts_step _ stmts) (VisitStep.exit _))
  | path nm => exact VisitStep.refl_self s
  | lit n => exact VisitStep.refl_self s
  | unary op e =>
      simp only [visitExpr]
      exact VisitStep.trans (VisitStep.countE s)
        (VisitStep.trans (VisitStep.derefC _ op) (visitExpr_step _ e))
  | call fe args =>
      simp only [visitExpr]
      exact VisitStep.trans (VisitStep.countE s)
        (VisitStep.trans (visitExpr_step _ fe) (visitExprs_step _ args))
  | blockE stmts =>
      simp only [visitExpr]
      exact VisitStep.trans (VisitStep.countE s) (visitStmts_step _ stmts)
  | other es =>
      simp only [visitExpr]
      exact VisitStep.trans (VisitStep.countE s) (visitExprs_step _ es)

/-- Every expression-list visit is a `VisitStep`. -/
theorem visitExprs_step (s : GeigerSynVisitor) (es : GExprs) :
    VisitStep s (visitExprs s es) := by
  cases es with
  | nil => exact VisitStep.refl_self s
  | cons e es =>
      simp only [visitExprs]
      exact VisitStep.trans (visitExpr_step s e) (visitExprs_step _ es)

/-- Every statement visit is a `VisitStep`. -/
theorem visitStmt_step (s : GeigerSynVisitor) (st : GStmt) :
    VisitStep s (visitStmt s st) := by
  cases st with
  | exprS e => exact visitExpr_step s e
  | localNone => exact VisitStep.refl_self s
  | localSome e => exact visitExpr_step s e
  | itemS i => exact visitItem_step s i

/-- Every statement-list visit is a `VisitStep`. -/
theorem visitStmts_step (s : GeigerSynVisitor) (ss : GStmts) :
    VisitStep s (visitStmts s ss) := by
  cases ss with
  | nil => exact VisitStep.refl_self s
  | cons st ss =>
      simp only [visitStmts]
      exact VisitStep.trans (visitStmt_step s st) (visitStmts_step _ ss)

/-- Every item visit is a `VisitStep`. -/
theorem visitItem_step (s : GeigerSynVisitor) (i : GItem) :
    VisitStep s (visitItem s i) := by
  cases i with
  | fnItem isTest su au src body =>
      by_cases hskip : s.include_tests = IncludeTests.no ∧ isTest = true
      · simp only [visitItem]
        simp [hskip]
        exact VisitStep.refl_self s
      · cases su <;> cases au <;> simp only [visitItem] <;> simp [hskip] <;>
          first
          | (refine VisitStep.trans
               (VisitStep.trans
                 (VisitStep.initEnter s BlockType.Function src body.length)
                 (VisitStep.trans ?_ (visitStmts_step _ body)))
               (VisitStep.exit _)
             exact VisitStep.silent rfl (fun h => h) rfl rfl rfl)
          | (refine VisitStep.trans
               (VisitStep.initEnter s BlockType.Function src body.length)
               (VisitStep.trans ?_ (visitStmts_step _ body))
             exact VisitStep.silent rfl (fun h => h) rfl rfl rfl)
          | (refine VisitStep.trans ?_ (visitStmts_step _ body)
             exact VisitStep.silent rfl (fun h => h) rfl rfl rfl)
  | modEmpty isTest => exact VisitStep.refl_self s
  | modItem isTest items =>
      by_cases hskip : s.include_tests = IncludeTests.no ∧ isTest = true
      · simp only [visitItem]
        simp [hskip]
        exact VisitStep.refl_self s
      · simp only [visitItem]
        simp [hskip]
        exact visitItems_step s items
  | implItem isU ms =>
      simp only [visitItem]
      refine VisitStep.trans ?_ (visitMethods_step _ ms)
      exact VisitStep.silent rfl (fun h => h) rfl rfl rfl
  | traitItem isU =>
      simp only [visitItem]
      exact VisitStep.silent rfl (fun h => h) rfl rfl rfl

/-- Every item-list visit is a `VisitStep`. -/
theorem visitItems_step (s : GeigerSynVisitor) (is_ : GItems) :
    VisitStep s (visitItems s is_) := by
  cases is_ with
  | nil => exact VisitStep.refl_self s
  | cons i is_ =>
      simp only [visitItems]
      exact VisitStep.trans (visitItem_step s i) (visitItems_step _ is_)

/-- Every method visit is a `VisitStep`. -/
theorem visitMethod_step (s : GeigerSynVisitor) (m : GMethod) :
    VisitStep s (visitMethod s m) := by
  cases m with
  | mk su src body =>
      cases su <;> simp only [visitMethod] <;> simp <;>
        first
        | (refine VisitStep.trans
             (VisitStep.trans
               (VisitStep.initEnter s BlockType.Method src body.length)
               (VisitStep.trans ?_ (visitStmts_step _ body)))
             (VisitStep.exit _)
           exact VisitStep.silent rfl (fun h => h) rfl rfl rfl)
        | (refine VisitStep.trans ?_ (visitStmts_step _ body)
           exact VisitStep.silent rfl (fun h => h) rfl rfl rfl)

/-- Every method-list visit is a `VisitStep`. -/
theorem visitMethods_step (s : GeigerSynVisitor) (ms : GMethods) :
    VisitStep s (visitMethods s ms) := by
  cases ms with
  | nil => exact VisitStep.refl_self s
  | cons m ms =>
      simp only [visitMethods]
      exact VisitStep.trans (visitMethod_step s m) (visitMethods_step _ ms)

end

mutual

/-- Visiting an expression without function declarations leaves the
function counter untouched. -/
theorem fns_visitExpr (s : GeigerSynVisitor) (e : GExpr)
    (hf : exprFF e = true) :
    (visitExpr s e).metrics.counters.functions =
      s.metrics.counters.functions := by
  cases e with
  | ublock src stmts =>
      simp only [exprFF] at hf
      simp only [visitExpr, exitScope_metrics]
      rw [fns_visitStmts _ stmts hf]
      rfl
  | path nm => rfl
  | lit n => rfl
  | unary op e =>
      simp only [exprFF] at hf
      simp only [visitExpr]
      rw [fns_visitExpr _ e hf]
      simp
  | call fe args =>
      simp only [exprFF, Bool.and_eq_true] at hf
      simp only [visitExpr]
      rw [fns_visitExprs _ args hf.2, fns_visitExpr _ fe hf.1]
      simp
  | blockE stmts =>
      simp only [exprFF] at hf
      simp only [visitExpr]
      rw [fns_visitStmts _ stmts hf]
      simp
  | other es =>
      simp only [exprFF] at hf
      simp only [visitExpr]
      rw [fns_visitExprs _ es hf]
      simp

/-- Visiting an expression list without function declarations leaves
the function counter untouched. -/
theorem fns_visitExprs (s : GeigerSynVisitor) (es : GExprs)
    (hf : exprsFF es = true) :
    (visitExprs s es).metrics.counters.functions =
      s.metrics.counters.functions := by
  cases es with
  | nil => rfl
  | cons e es =>
      simp only [exprsFF, Bool.and_eq_true] at hf
      simp only [visitExprs]
      rw [fns_visitExprs _ es hf.2, fns_visitExpr _ e hf.1]

/-- Visiting a statement without function declarations leaves the
function counter untouched. -/
theorem fns_visitStmt (s : GeigerSynVisitor) (st : GStmt)
    (hf : stmtFF st = true) :
    (visitStmt s st).metrics.counters.functions =
      s.metrics.counters.functions := by
  cases st with
  | exprS e => exact fns_visitExpr s e (by simpa [stmtFF] using hf)
  | localNone => rfl
  | localSome e => exact fns_visitExpr s e (by simpa [stmtFF] using hf)
  | itemS i => exact fns_visitItem s i (by simpa [stmtFF] using hf)

/-- Visiting a statement list without function declarations leaves the
function counter untouched. -/
theorem fns_visitStmts (s : GeigerSynVisitor) (ss : GStmts)
    (hf : stmtsFF ss = true) :
    (visitStmts s ss).metrics.counters.functions =
      s.metrics.counters.functions := by
  cases ss with
  | nil => rfl
  | cons st ss =>
      simp only [stmtsFF, Bool.and_eq_true] at hf
      simp only [visitStmts]
      rw [fns_visitStmts _ ss hf.2, fns_visitStmt _ st hf.1]

/-- Visiting an item without function declarations leaves the function
counter untouched. -/
theorem fns_visitItem (s : GeigerSynVisitor) (i : GItem)
    (hf : itemFF i = true) :
    (visitItem s i).metrics.counters.functions =
      s.metrics.counters.functions := by
  cases i with
  | fnItem isTest su au src body => simp [itemFF] at hf
  | modEmpty isTest => rfl
  | modItem isTest items =>
      simp only [itemFF] at hf
      by_cases hskip : s.include_tests = IncludeTests.no ∧ isTest = true
      · simp [visitItem, hskip]
      · simp only [visitItem]
        simp [hskip]
        rw [fns_visitItems _ items hf]
  | implItem isU ms =>
      simp only [itemFF] at hf
      simp only [visitItem]
      rw [fns_visitMethods _ ms hf]
  | traitItem isU => rfl

/-- Visiting an item list without function declarations leaves the
function counter untouched. -/
theorem fns_visitItems (s : GeigerSynVisitor) (is_ : GItems)
    (hf : itemsFF is_ = true) :
    (visitItems s is_).metrics.counters.functions =
      s.metrics.counters.functions := by
  cases is_ with
  | nil => rfl
  | cons i is_ =>
      simp only [itemsFF, Bool.and_eq_true] at hf
      simp only [visitItems]
      rw [fns_visitItems _ is_ hf.2, fns_visitItem _ i hf.1]

/-- Visiting a method whose body has no function declarations leaves
the function counter untouched. -/
theorem fns_visitMethod (s : GeigerSynVisitor) (m : GMethod)
    (hf : methodFF m = true) :
    (visitMethod s m).metrics.counters.functions =
      s.metrics.counters.functions := by
  cases m with
  | mk su src body =>
      simp only [methodFF] at hf
      cases su <;> simp only [visitMethod] <;> simp <;>
        rw [fns_visitStmts _ body hf]

/-- Visiting a method list without function declarations leaves the
function counter untouched. -/
theorem fns_visitMethods (s : GeigerSynVisitor) (ms : GMethods)
    (hf : methodsFF ms = true) :
    (visitMethods s ms).metrics.counters.functions =
      s.metrics.counters.functions := by
  cases ms with
  | nil => rfl
  | cons m ms =>
      simp only [methodsFF, Bool.and_eq_true] at hf
      simp only [visitMethods]
      rw [fns_visitMethods _ ms hf.2, fns_visitMethod _ m hf.1]

end

mutual

/-- Visiting a region-free expression changes neither the depth
counter nor the output. -/
theorem rf_visitExpr (s : GeigerSynVisitor) (e : GExpr)
    (hr : exprRF e = true) :
    (visitExpr s e).scopes = s.scopes ∧ (visitExpr s e).output = s.output := by
  cases e with
  | ublock src stmts => simp [exprRF] at hr
  | path nm => exact ⟨rfl, rfl⟩
  | lit n => exact ⟨rfl, rfl⟩
  | unary op e =>
      simp only [exprRF] at hr
      obtain ⟨h1, h2⟩ := rf_visitExpr
        ((GeigerSynVisitor.countExpr s).derefCheck op) e hr
      refine ⟨?_, ?_⟩
      · simp only [visitExpr]
        rw [h1]
        simp
      · simp only [visitExpr]
        rw [h2]
        simp
  | call fe args =>
      simp only [exprRF, Bool.and_eq_true] at hr
      obtain ⟨h1, h2⟩ := rf_visitExpr (GeigerSynVisitor.countExpr s) fe hr.1
      obtain ⟨g1, g2⟩ := rf_visitExprs
        (visitExpr (GeigerSynVisitor.countExpr s) fe) args hr.2
      refine ⟨?_, ?_⟩
      · simp only [visitExpr]
        rw [g1, h1]
        simp
      · simp only [visitExpr]
        rw [g2, h2]
        simp
  | blockE stmts =>
      simp only [exprRF] at hr
      obtain ⟨h1, h2⟩ := rf_visitStmts (GeigerSynVisitor.countExpr s) stmts hr
      refine ⟨?_, ?_⟩
      · simp only [visitExpr]
        rw [h1]
        simp
      · simp only [visitExpr]
        rw [h2]
        simp
  | other es =>
      simp only [exprRF] at hr
      obtain ⟨h1, h2⟩ := rf_visitExprs (GeigerSynVisitor.countExpr s) es hr
      refine ⟨?_, ?_⟩
      · simp only [visitExpr]
        rw [h1]
        simp
      · simp only [visitExpr]
        rw [h2]
        simp

/-- Visiting a region-free expression list changes neither the depth
counter nor the output. -/
theorem rf_visitExprs (s : GeigerSynVisitor) (es : GExprs)
    (hr : exprsRF es = true) :
    (visitExprs s es).scopes = s.scopes ∧
    (visitExprs s es).output = s.output := by
  cases es with
  | nil => exact ⟨rfl, rfl⟩
  | cons e es =>
      simp only [exprsRF, Bool.and_eq_true] at hr
      obtain ⟨h1, h2⟩ := rf_visitExpr s e hr.1
      obtain ⟨g1, g2⟩ := rf_visitExprs (visitExpr s e) es hr.2
      exact ⟨by simp only [visitExprs]; rw [g1, h1],
        by simp only [visitExprs]; rw [g2, h2]⟩

/-- Visiting a region-free statement changes neither the depth counter
nor the output. -/
theorem rf_visitStmt (s : GeigerSynVisitor) (st : GStmt)
    (hr : stmtRF st = true) :
    (visitStmt s st).scopes = s.scopes ∧
    (visitStmt s st).output = s.output := by
  cases st with
  | exprS e => exact rf_visitExpr s e (by simpa [stmtRF] using hr)
  | localNone => exact ⟨rfl, rfl⟩
  | localSome e => exact rf_visitExpr s e (by simpa [stmtRF] using hr)
  | itemS i => exact rf_visitItem s i (by simpa [stmtRF] using hr)

/-- Visiting a region-free statement list changes neither the depth
counter nor the output. -/
theorem rf_visitStmts (s : GeigerSynVisitor) (ss : GStmts)
    (hr : stmtsRF ss = true) :
    (visitStmts s ss).scopes = s.scopes ∧
    (visitStmts s ss).output = s.output := by
  cases ss with
  | nil => exact ⟨rfl, rfl⟩
  | cons st ss =>
      simp only [stmtsRF, Bool.and_eq_true] at hr
      obtain ⟨h1, h2⟩ := rf_visitStmt s st hr.1
      obtain ⟨g1, g2⟩ := rf_visitStmts (visitStmt s st) ss hr.2
      exact ⟨by simp only [visitStmts]; rw [g1, h1],
        by simp only [visitStmts]; rw [g2, h2]⟩

/-- Visiting a region-free item changes neither the depth counter nor
the output. -/
theorem rf_visitItem (s : GeigerSynVisitor) (i : GItem)
    (hr : itemRF i = true) :
    (visitItem s i).scopes = s.scopes ∧
    (visitItem s i).output = s.output := by
  cases i with
  | fnItem isTest su au src body =>
      simp only [itemRF, Bool.and_eq_true, Bool.not_eq_true'] at hr
      obtain ⟨⟨hsu, hau⟩, hbody⟩ := hr
      subst hsu
      subst hau
      by_cases hskip : s.include_tests = IncludeTests.no ∧ isTest = true
      · simp [visitItem, hskip]
      · obtain ⟨h1, h2⟩ := rf_visitStmts
          { s with metrics.counters.functions :=
              s.metrics.counters.functions.count false } body hbody
        refine ⟨?_, ?_⟩
        · simp only [visitItem]
          simp [hskip]
          rw [h1]
        · simp only [visitItem]
          simp [hskip]
          rw [h2]
  | modEmpty isTest => exact ⟨rfl, rfl⟩
  | modItem isTest items =>
      simp only [itemRF] at hr
      by_cases hskip : s.include_tests = IncludeTests.no ∧ isTest = true
      · simp [visitItem, hskip]
      · obtain ⟨h1, h2⟩ := rf_visitItems s items hr
        refine ⟨?_, ?_⟩
        · simp only [visitItem]
          simp [hskip]
          rw [h1]
        · simp only [visitItem]
          simp [hskip]
          rw [h2]
  | implItem isU ms =>
      simp only [itemRF] at hr
      obtain ⟨h1, h2⟩ := rf_visitMethods
        { s with metrics.counters.item_impls :=
            s.metrics.counters.item_impls.count isU } ms hr
      exact ⟨by simp only [visitItem]; rw [h1],
        by simp only [visitItem]; rw [h2]⟩
  | traitItem isU => exact ⟨rfl, rfl⟩

/-- Visiting a region-free item list changes neither the depth counter
nor the output. -/
theorem rf_visitItems (s : GeigerSynVisitor) (is_ : GItems)
    (hr : itemsRF is_ = true) :
    (visitItems s is_).scopes = s.scopes ∧
    (visitItems s is_).output = s.output := by
  cases is_ with
  | nil => exact ⟨rfl, rfl⟩
  | cons i is_ =>
      simp only [itemsRF, Bool.and_eq_true] at hr
      obtain ⟨h1, h2⟩ := rf_visitItem s i hr.1
      obtain ⟨g1, g2⟩ := rf_visitItems (visitItem s i) is_ hr.2
      exact ⟨by simp only [visitItems]; rw [g1, h1],
        by simp only [visitItems]; rw [g2, h2]⟩

/-- Visiting a region-free method changes neither the depth counter
nor the output. -/
theorem rf_visitMethod (s : GeigerSynVisitor) (m : GMethod)
    (hr : methodRF m = true) :
    (visitMethod s m).scopes = s.scopes ∧
    (visitMethod s m).output = s.output := by
  cases m with
  | mk su src body =>
      simp only [methodRF, Bool.and_eq_true, Bool.not_eq_true'] at hr
      obtain ⟨hsu, hbody⟩ := hr
      subst hsu
      obtain ⟨h1, h2⟩ := rf_visitStmts
        { s with metrics.counters.methods :=
            s.metrics.counters.methods.count false } body hbody
      refine ⟨?_, ?_⟩
      · simp only [visitMethod]
        simp
        rw [h1]
      · simp only [visitMethod]
        simp
        rw [h2]

/-- Visiting a region-free method list changes neither the depth
counter nor the output. -/
theorem rf_visitMethods (s : GeigerSynVisitor) (ms : GMethods)
    (hr : methodsRF ms = true) :
    (visitMethods s ms).scopes = s.scopes ∧
    (visitMethods s ms).output = s.output := by
  cases ms with
  | nil => exact ⟨rfl, rfl⟩
  | cons m ms =>
      simp only [methodsRF, Bool.and_eq_true] at hr
      obtain ⟨h1, h2⟩ := rf_visitMethod s m hr.1
      obtain ⟨g1, g2⟩ := rf_visitMethods (visitMethod s m) ms hr.2
      exact ⟨by simp only [visitMethods]; rw [g1, h1],
        by simp only [visitMethods]; rw [g2, h2]⟩

end

/-- C1, counterexample.  The claim says the bucket of the function
counter is chosen by the pre-entry depth, so a lone top-level function
(pre-entry depth zero) must land in the outside bucket whatever its
markers.  Scanning a file whose only item is a directly-marked
top-level function puts it in the inside bucket instead: the code
passes the function's own marker flag, not the depth, to the ledger. -/
theorem c1_counterexample :
    (scanFile IncludeTests.yes exFileC1).metrics.counters.functions ≠
      { safe := 1, uns := 0 } ∧
    (scanFile IncludeTests.yes exFileC1).metrics.counters.functions =
      { safe := 0, uns := 1 } := by decide

/-- C1 (corrected): the bucket of the function-declarations counter is
chosen by the function's own marker (direct or attribute-based), not
by the depth counter: for any visitor state (any depth) a visited,
non-skipped function declaration whose body contains no further
function declarations moves the functions counter by exactly one
`count` step with flag `su || au`. -/
theorem c1_fn_bucket_by_marker (s : GeigerSynVisitor)
    (isTest su au : Bool) (src : String) (body : GStmts)
    (hskip : ¬(s.include_tests = IncludeTests.no ∧ isTest = true))
    (hf : stmtsFF body = true) :
    (visitItem s
        (GItem.fnItem isTest su au src body)).metrics.counters.functions =
      s.metrics.counters.functions.count (su || au) := by
  cases su <;> cases au <;> simp only [visitItem] <;> simp [hskip] <;>
    rw [fns_visitStmts _ body hf]

/-- C1, witness for the corrected claim at a concrete input. -/
theorem c1_witness :
    (visitItem (GeigerSynVisitor.new IncludeTests.yes)
        (GItem.fnItem false true false "f"
          GStmts.nil)).metrics.counters.functions =
      (GeigerSynVisitor.new
          IncludeTests.yes).metrics.counters.functions.count (true || false) :=
  c1_fn_bucket_by_marker (GeigerSynVisitor.new IncludeTests.yes) false true
    false "f" GStmts.nil (by decide) rfl

/-- C2, counterexample.  The claim says the depth counter returns to
its pre-scan value (zero for a fresh visitor) after every full scan.
Scanning a file whose only item is an attribute-only-marked function
leaves the depth counter at one: the opened region is never closed. -/
theorem c2_counterexample :
    (scanFile IncludeTests.yes exFileC2).scopes ≠ 0 := by decide

/-- C2 (corrected): after a full scan the depth counter equals the
number of visited function declarations carrying the attribute marker
without the direct marker (the open events these contribute are never
matched by close events); it is zero exactly when the file has no such
visited function. -/
theorem c2_depth_equals_leaks (it : IncludeTests) (f : GFile) :
    (scanFile it f).scopes = fileLeaks it f := by
  have h := (visitItems_spec1
    { GeigerSynVisitor.new it with metrics.forbids := f.forbids } f.items).2.1
  simpa [scanFile, visitFile, fileLeaks, GeigerSynVisitor.new] using h

/-- C3, counterexample.  The claim says visiting an
attribute-only-marked function leaves the depth counter exactly one
higher.  When such a function declares another attribute-only-marked
function in its body, the counter ends two higher. -/
theorem c3_counterexample :
    (visitItem (GeigerSynVisitor.new IncludeTests.yes) exItemC3).scopes ≠
      (GeigerSynVisitor.new IncludeTests.yes).scopes + 1 ∧
    (visitItem (GeigerSynVisitor.new IncludeTests.yes) exItemC3).scopes = 2 :=
  by decide

/-- C3 (corrected): visiting a non-skipped function declaration
carrying the attribute marker without the direct marker increments the
depth counter by one for the function itself (never matched by a
decrement) plus whatever unclosed regions its body contributes; and
its return path emits nothing, so when the body contains no trust
regions at all the depth ends exactly one higher and the output is
unchanged. -/
theorem c3_attr_fn_unclosed (s : GeigerSynVisitor) (isTest : Bool)
    (src : String) (body : GStmts)
    (hskip : ¬(s.include_tests = IncludeTests.no ∧ isTest = true)) :
    (visitItem s (GItem.fnItem isTest false true src body)).scopes =
      s.scopes + 1 + stmtsLeaks s.include_tests body ∧
    (stmtsRF body = true →
      (visitItem s (GItem.fnItem isTest false true src body)).output =
        s.output) := by
  constructor
  · have h := (visitItem_spec1 s (GItem.fnItem isTest false true src body)).2.1
    rw [h]
    simp [itemLeaks, hskip]
    omega
  · intro hr
    simp only [visitItem]
    simp [hskip]
    rw [(rf_visitStmts _ body hr).2]

/-- C3, witness for the corrected claim at a concrete input. -/
theorem c3_witness :
    (visitItem (GeigerSynVisitor.new IncludeTests.yes)
        (GItem.fnItem false false true "f" GStmts.nil)).scopes =
      (GeigerSynVisitor.new IncludeTests.yes).scopes + 1 +
        stmtsLeaks IncludeTests.yes GStmts.nil ∧
    (visitItem (GeigerSynVisitor.new IncludeTests.yes)
        (GItem.fnItem false false true "f" GStmts.nil)).output =
      (GeigerSynVisitor.new IncludeTests.yes).output :=
  ⟨(c3_attr_fn_unclosed (GeigerSynVisitor.new IncludeTests.yes) false "f"
      GStmts.nil (by decide)).1,
   (c3_attr_fn_unclosed (GeigerSynVisitor.new IncludeTests.yes) false "f"
      GStmts.nil (by decide)).2 rfl⟩

/-- C4, counterexample.  The claim says the dereference flag is
cleared on every region entry, so a region's line carries the marker
only if a dereference was observed after that region's own entry.  In
`exFileC4` the only printed line belongs to the empty block `blk`,
inside which nothing at all was observed, yet the line carries the
marker: the flag was set by the earlier unclosed attribute-marked
function's body and `init_unsafe_stat` did not clear it. -/
theorem c4_counterexample :
    (scanFile IncludeTests.yes exFileC4).output =
      [{ block := "blk", block_type := BlockType.Inner, expr_delta := 0,
         stmt := 0, deref := true }] := by decide

/-- C4 (corrected): region entry (`init_unsafe_stat`, with or without
the accompanying depth increment) preserves the dereference flag
unchanged rather than clearing it; the flag becomes false only on
region close, which prints the line carrying the flag's value at close
time. -/
theorem c4_flag_preserved_on_entry (s : GeigerSynVisitor) (bt : BlockType)
    (blk : String) (n : Nat) :
    (s.initStat bt blk n).stat.has_deref = s.stat.has_deref ∧
    (s.enterScope).stat.has_deref = s.stat.has_deref ∧
    (s.exitScope).stat.has_deref = false ∧
    (s.exitScope).output = s.output ++
      [{ block := s.stat.block
         block_type := s.stat.block_type
         expr_delta := s.metrics.counters.exprs.uns - s.stat.expr_prev
         stmt := s.stat.stmt
         deref := s.stat.has_deref }] :=
  ⟨rfl, rfl, rfl, rfl⟩

/-- C5, counterexample.  The claim says a dereference strictly inside
an open region causes that region's line to end with the marker.  In
`exprC5` the dereference sits directly in the outer block, but the
nested block closes first, steals the marker (its line ends with it)
and clears the flag, so the outer region's own line (the second one,
which even re-prints the inner block's slot contents because the slot
was overwritten) does not carry the marker. -/
theorem c5_counterexample :
    (visitExpr (GeigerSynVisitor.new IncludeTests.yes) exprC5).output =
      [{ block := "inner", block_type := BlockType.Inner, expr_delta := 0,
         stmt := 0, deref := true },
       { block := "inner", block_type := BlockType.Inner, expr_delta := 0,
         stmt := 0, deref := false }] := by decide

/-- C5 (corrected): a dereference observed at depth zero leaves the
visitor's behaviour identical to plain recursion (the flag is never
set), a dereference observed at positive depth sets the flag, and
whenever the flag is set the first diagnostic line printed afterwards
(the next region to close, not necessarily the region containing the
dereference) ends with the marker. -/
theorem c5_deref_next_line (s : GeigerSynVisitor) (op : GUnOp) (e : GExpr) :
    (s.scopes = 0 → visitExprUnary s op e = visitExpr s e) ∧
    (0 < s.scopes → visitExprUnary s GUnOp.deref e =
      visitExpr { s with stat := { s.stat with has_deref := true } } e) ∧
    (s.stat.has_deref = true → ∀ l,
      ((visitExpr s e).output.drop s.output.length).head? = some l →
      l.deref = true) := by
  refine ⟨?_, ?_, ?_⟩
  · intro h
    simp [visitExprUnary, GeigerSynVisitor.derefCheck, h]
  · intro h
    simp [visitExprUnary, GeigerSynVisitor.derefCheck, h]
  · intro hd l hl
    obtain ⟨⟨ex, ho, hp⟩, -, -⟩ := visitExpr_step s e
    rw [ho, List.drop_left] at hl
    exact (hp hd).1 l hl

/-- C5, witness: the three parts of the corrected claim at concrete
inputs (a dereference at depth zero, one at depth one, and a set flag
followed by a closing empty block whose line carries the marker). -/
theorem c5_witness :
    visitExprUnary (GeigerSynVisitor.new IncludeTests.yes) GUnOp.deref
        (GExpr.path "p") =
      visitExpr (GeigerSynVisitor.new IncludeTests.yes) (GExpr.path "p") ∧
    visitExprUnary ((GeigerSynVisitor.new IncludeTests.yes).enterScope)
        GUnOp.deref (GExpr.path "p") =
      visitExpr { (GeigerSynVisitor.new IncludeTests.yes).enterScope with
          stat := { ((GeigerSynVisitor.new
              IncludeTests.yes).enterScope).stat with
              has_deref := true } } (GExpr.path "p") ∧
    ({ block := "b", block_type := BlockType.Inner, expr_delta := 0,
       stmt := 0, deref := true } : Line).deref = true :=
  ⟨(c5_deref_next_line (GeigerSynVisitor.new IncludeTests.yes) GUnOp.deref
      (GExpr.path "p")).1 rfl,
   (c5_deref_next_line ((GeigerSynVisitor.new IncludeTests.yes).enterScope)
      GUnOp.deref (GExpr.path "p")).2.1 (by decide),
   (c5_deref_next_line flagVisitorC5 GUnOp.deref
      (GExpr.ublock "b" GStmts.nil)).2.2 rfl _ (by decide)⟩

/-- C6 (confirmed): visiting a bare path expression or a literal
expression is the identity on the whole visitor state (neither bucket
of any counter moves, at any depth), and visiting the call `f(x)`
whose callee and argument are bare paths moves the
generic-expressions counter by exactly one `count` step, in the bucket
chosen by the current depth. -/
theorem c6_trivial_not_counted (s : GeigerSynVisitor) (nm : String) (n : Nat)
    (f x : String) :
    visitExpr s (GExpr.path nm) = s ∧
    visitExpr s (GExpr.lit n) = s ∧
    (visitExpr s (GExpr.call (GExpr.path f)
        (GExprs.cons (GExpr.path x) GExprs.nil))).metrics.counters.exprs =
      s.metrics.counters.exprs.count (decide (0 < s.scopes)) :=
  ⟨rfl, rfl, rfl⟩

/-- C7 (confirmed): scanning the scenario file (one safe function
whose body is one directly-marked block with one dereference and two
statements) yields functions outside bucket one, at least one
inside-bucket generic expression, and exactly one diagnostic line:
shape inline block, statement count two, ending with the marker. -/
theorem c7_scenario :
    (scanFile IncludeTests.yes exFileC7).metrics.counters.functions.safe = 1 ∧
    1 ≤ (scanFile IncludeTests.yes exFileC7).metrics.counters.exprs.uns ∧
    (scanFile IncludeTests.yes exFileC7).output =
      [{ block := "blk", block_type := BlockType.Inner, expr_delta := 1,
         stmt := 2, deref := true }] := by decide

/-- C8 (confirmed): on any well-formed input tree a full scan never
decrements the depth counter at zero: the ghost flag recording a
decrement-at-zero (where the source's `u32` subtraction would wrap) is
still false when the scan completes. -/
theorem c8_no_scope_underflow (it : IncludeTests) (f : GFile) :
    (scanFile it f).scope_underflow = false := by
  have h := (visitItems_spec1
    { GeigerSynVisitor.new it with metrics.forbids := f.forbids } f.items).2.2
  simpa [scanFile, visitFile, GeigerSynVisitor.new] using h

/-- C9 (confirmed): whenever a region closes during a full scan, the
final expression count is at least the recorded baseline, even though
nested regions overwrite the single slot, so the `usize` subtraction
in the diagnostic line never underflows: the ghost flag recording a
smaller-than-baseline close is still false when the scan completes. -/
theorem c9_no_delta_underflow (it : IncludeTests) (f : GFile) :
    (scanFile it f).delta_underflow = false := by
  obtain ⟨-, -, hd⟩ := visitItems_step
    { GeigerSynVisitor.new it with metrics.forbids := f.forbids } f.items
  have h := hd (Nat.le_refl 0)
  simpa [scanFile, visitFile, GeigerSynVisitor.new] using h

/-- C10 (confirmed): visiting a directly-marked block expression
leaves the counter ledger exactly as visiting its statements from the
post-entry state does, and the entry steps themselves change no
counter; in particular an empty marked block leaves the
generic-expressions counter untouched, so the block node itself is
never counted. -/
theorem c10_ublock_node_not_counted (s : GeigerSynVisitor) (src : String)
    (stmts : GStmts) :
    (visitExpr s (GExpr.ublock src stmts)).metrics.counters =
      (visitStmts ((s.enterScope).initStat BlockType.Inner src stmts.length)
        stmts).metrics.counters ∧
    ((s.enterScope).initStat BlockType.Inner src
        stmts.length).metrics.counters = s.metrics.counters ∧
    (visitExpr s (GExpr.ublock src GStmts.nil)).metrics.counters.exprs =
      s.metrics.counters.exprs :=
  ⟨rfl, rfl, rfl⟩
